import Mathlib

/-!
Verification of the AlgoCrypto position/order lifecycle manager.

This file shallowly embeds the core of
`Backend/Connection/trading_implementation.py` (class `TradingBot`:
`execute_signal`, `close_position`, `check_global_drawdown`,
`can_open_new_position`, `check_stop_loss_take_profit`, the quantity
rounding of `_place_order_direct_api`) together with
`Backend/Connection/config.py` (`calculate_position_size`) and
`LiveTradingBot.get_current_signal`, and proves the specification's
claims about them.

Modelling conventions:
* Python floats become `ℚ`; Python float division by zero raises
  `ZeroDivisionError`, so `check_global_drawdown` returns
  `Option` (`none` = uncaught exception).
* `self.positions` is a Python dict whose values are, per symbol,
  either `None`, a legacy plain position dict, or a
  `{'long': ..., 'short': ...}` hedge-mode dict.  It is embedded as an
  insertion-ordered association list `Ledger` with values in
  `SymbolSlot`.
* Exchange I/O (`place_market_order`) is blocking and either returns an
  order dict or `None`.  It is embedded as an oracle `Exchange`: a list
  of booleans consumed one per order attempt (`true` = the exchange
  confirmed the order, `false` = rejection/exception; an exhausted
  oracle also means failure).
* Log output is ignored except where it is the only observable
  (`check_stop_loss_take_profit` reports whether the stop-loss or the
  take-profit branch fired only in its log line; the embedding carries
  that branch as an `ExitReason`).
-/

set_option maxRecDepth 4000

/-- A tracked position, as stored by `TradingBot.execute_signal`:
`{'side': 1 | -1, 'size': ..., 'entry_price': ..., 'stop_loss_price': ...,
'take_profit_price': ...}`. -/
structure Position where
  side : Int
  size : ℚ
  entry_price : ℚ
  stop_loss_price : ℚ
  take_profit_price : ℚ
  deriving DecidableEq, Repr

/-- The value stored in `self.positions[symbol]`: Python `None`, a legacy
plain position dict (one-way mode), or a hedge-mode
`{'long': pos-or-None, 'short': pos-or-None}` dict. -/
inductive SymbolSlot where
  | empty : SymbolSlot
  | single (p : Position) : SymbolSlot
  | hedged (lo sh : Option Position) : SymbolSlot
  deriving DecidableEq, Repr

abbrev SymId := String

/-- `self.positions`: an insertion-ordered dict from symbol to slot. -/
abbrev Ledger := List (SymId × SymbolSlot)

/-- Dict lookup (`self.positions[k]`, `k in self.positions`). -/
def Ledger.lookup : Ledger → SymId → Option SymbolSlot
  | [], _ => none
  | (k', v) :: t, k => if k' = k then some v else Ledger.lookup t k

/-- Dict assignment `self.positions[k] = v`: update in place if the key
exists, otherwise append (Python dicts keep insertion order). -/
def Ledger.set : Ledger → SymId → SymbolSlot → Ledger
  | [], k, v => [(k, v)]
  | (k', v') :: t, k, v =>
      if k' = k then (k, v) :: t else (k', v') :: Ledger.set t k v

/-- The position records a slot currently tracks. -/
def SymbolSlot.tracked : SymbolSlot → List Position
  | .empty => []
  | .single p => [p]
  | .hedged lo sh => lo.toList ++ sh.toList

/-- Position records tracked for one symbol. -/
def Ledger.trackedAt (d : Ledger) (k : SymId) : List Position :=
  match d.lookup k with
  | none => []
  | some s => s.tracked

/-- Total number of tracked position records in the ledger. -/
def Ledger.trackedCount (d : Ledger) : ℕ :=
  (d.map fun kv => kv.2.tracked.length).sum

/-- Mutable bot state: `self.positions` and `self.peak_portfolio_value`. -/
structure BotState where
  positions : Ledger
  peak : ℚ
  deriving DecidableEq, Repr

/-- Configuration snapshot: fields of `TradingBot.__init__` plus the
values read from `config.py` and `load_trading_config()`. -/
structure BotConfig where
  symbol : SymId
  hedge_mode : Bool
  quantity_btc : Option ℚ
  stop_loss_pct : ℚ
  take_profit_pct : ℚ
  max_concurrent_trades : ℕ
  global_drawdown_limit : ℚ
  total_capital : ℚ
  risk_per_trade : ℚ
  tradeable_assets : List SymId
  deriving DecidableEq, Repr

/-- The exchange oracle: the outcome of each successive
`place_market_order` call (`true` = order dict returned, `false` =
`None`). -/
abbrev Exchange := List Bool

/-- Consume one order attempt from the oracle; an exhausted oracle
behaves as a failing exchange. -/
def popOrder : Exchange → Bool × Exchange
  | [] => (false, [])
  | b :: r => (b, r)

/-- `config.calculate_position_size(symbol, entry_price, stop_loss_price)`
with the module constants (`TRADEABLE_ASSETS`,
`TOTAL_PORTFOLIO_CAPITAL_USD`, `RISK_PER_TRADE_PERCENT`) as explicit
parameters. -/
def calculate_position_size (assets : List SymId) (capital riskFrac : ℚ)
    (symbol : SymId) (entry_price stop_loss_price : ℚ) : ℚ :=
  if symbol ∉ assets then 0
  else if entry_price ≤ 0 ∨ stop_loss_price ≤ 0 then 0
  else
    let risk_amount_usd := capital * riskFrac
    let sl_distance := |entry_price - stop_loss_price|
    if sl_distance = 0 then 0
    else risk_amount_usd / sl_distance

/-- `TradingBot.check_global_drawdown(current_portfolio_value)`.  The
method mutates `self.peak_portfolio_value` and returns a bool; the
embedding returns the new peak together with the bool.  Python float
division raises `ZeroDivisionError` on a zero divisor, so the result is
`none` when the (updated) peak is `0`. -/
def check_global_drawdown (peak limit value : ℚ) : Option (ℚ × Bool) :=
  let peak' := if value > peak then value else peak
  if peak' = 0 then none
  else some (peak', decide ((peak' - value) / peak' ≥ limit))

/-- `TradingBot.can_open_new_position(hedge_mode)`. -/
def can_open_new_position (cfg : BotConfig) (st : BotState) : Bool :=
  let active_count : ℕ :=
    if cfg.hedge_mode then
      (st.positions.map fun kv =>
        match kv.2 with
        | .hedged lo sh =>
            (if lo.isSome then 1 else 0) + (if sh.isSome then 1 else 0)
        | .single _ => 1
        | .empty => 0).sum
    else
      (st.positions.filter fun kv => kv.2 ≠ SymbolSlot.empty).length
  decide (active_count < cfg.max_concurrent_trades)

/-- Side selector for `close_position`'s `side` argument
(`'long'` / `'short'`). -/
inductive PosSide where
  | long : PosSide
  | short : PosSide
  deriving DecidableEq, Repr

/-- The one-way branch of `TradingBot.close_position` (its `else` arm):
convert a hedge-mode dict in place if one is stored, then close the
single position with a market order, clearing the ledger entry only on
a confirmed order. -/
def closeOneWay (st : BotState) (ex : Exchange) (sym : SymId)
    (sp : SymbolSlot) : Bool × BotState × Exchange :=
  let conv : SymbolSlot :=
    match sp with
    | .hedged lo sh =>
        match lo with
        | some p => .single p
        | none =>
            match sh with
            | some p => .single p
            | none => .empty
    | s => s
  let st1 : BotState :=
    match sp with
    | .hedged _ _ => { st with positions := st.positions.set sym conv }
    | _ => st
  match conv with
  | .single _ =>
      let (ok, ex') := popOrder ex
      if ok then (true, { st1 with positions := st1.positions.set sym .empty }, ex')
      else (false, st1, ex')
  | _ => (false, st1, ex)

/-- `TradingBot.close_position(symbol, side)` with `side` given
(the non-recursive path). -/
def closePositionSide (cfg : BotConfig) (st : BotState) (ex : Exchange)
    (sym : SymId) (s : PosSide) : Bool × BotState × Exchange :=
  match Ledger.lookup st.positions sym with
  | none => (false, st, ex)
  | some sp =>
      match sp with
      | .hedged lo sh =>
          if cfg.hedge_mode then
            match (match s with | .long => lo | .short => sh) with
            | none => (false, st, ex)
            | some _ =>
                let (ok, ex') := popOrder ex
                if ok then
                  let lo' := match s with | .long => none | .short => lo
                  let sh' := match s with | .long => sh | .short => none
                  let slot' : SymbolSlot :=
                    match lo', sh' with
                    | none, none => .empty
                    | _, _ => .hedged lo' sh'
                  (true, { st with positions := st.positions.set sym slot' }, ex')
                else (false, st, ex')
          else closeOneWay st ex sym sp
      | sp' => closeOneWay st ex sym sp'

/-- `TradingBot.close_position(symbol, side)`; `side = none` closes
both sides in hedge mode (via the recursive calls in the source) and
the single position otherwise. -/
def close_position (cfg : BotConfig) (st : BotState) (ex : Exchange)
    (sym : SymId) (side : Option PosSide) : Bool × BotState × Exchange :=
  match side with
  | some s => closePositionSide cfg st ex sym s
  | none =>
      match Ledger.lookup st.positions sym with
      | none => (false, st, ex)
      | some sp =>
          match sp with
          | .hedged lo sh =>
              if cfg.hedge_mode then
                let r1 :=
                  if lo.isSome then closePositionSide cfg st ex sym .long
                  else (false, st, ex)
                let r2 :=
                  if sh.isSome then closePositionSide cfg r1.2.1 r1.2.2 sym .short
                  else (false, r1.2.1, r1.2.2)
                (r1.1 || r2.1, r2.2.1, r2.2.2)
              else closeOneWay st ex sym sp
          | sp' => closeOneWay st ex sym sp'

/-- The `signal == 0` branch of `TradingBot.execute_signal`: close any
open position(s) for the bot's symbol. -/
def flatBranch (cfg : BotConfig) (st : BotState) (ex : Exchange) :
    Bool × BotState × Exchange :=
  match Ledger.lookup st.positions cfg.symbol with
  | none => (false, st, ex)
  | some sp =>
      match sp with
      | .hedged lo sh =>
          if cfg.hedge_mode then
            let r1 :=
              if lo.isSome then close_position cfg st ex cfg.symbol (some .long)
              else (false, st, ex)
            let r2 :=
              if sh.isSome then close_position cfg r1.2.1 r1.2.2 cfg.symbol (some .short)
              else (false, r1.2.1, r1.2.2)
            (r1.1 || r2.1, r2.2.1, r2.2.2)
          else close_position cfg st ex cfg.symbol none
      | .empty => (false, st, ex)
      | .single _ => close_position cfg st ex cfg.symbol none

/-- Where `execute_signal` stores a freshly opened hedge-mode position:
into the side key selected by the signal, resetting a non-dict slot to
`{'long': None, 'short': None}` first. -/
def hedgeStore (cur : Option SymbolSlot) (signal : Int) (pd : Position) :
    SymbolSlot :=
  match cur with
  | some (.hedged lo sh) =>
      if signal = 1 then .hedged (some pd) sh else .hedged lo (some pd)
  | _ =>
      if signal = 1 then .hedged (some pd) none else .hedged none (some pd)

/-- The entry tail of `TradingBot.execute_signal` (from the
`can_open_new_position` check to the ledger update after the order):
concurrency gate, sizing (fixed `quantity_btc` override or
risk-based), order placement, and ledger insertion on success only. -/
def openEntry (cfg : BotConfig) (st : BotState) (ex : Exchange)
    (signal : Int) (current_price : ℚ) : Bool × BotState × Exchange :=
  if ¬ can_open_new_position cfg st then (false, st, ex)
  else
    let stop_loss_price :=
      if signal = 1 then current_price * (1 - cfg.stop_loss_pct)
      else current_price * (1 + cfg.stop_loss_pct)
    let size? : Option ℚ :=
      match cfg.quantity_btc with
      | some q =>
          if q > 0 then some q
          else
            let s := calculate_position_size cfg.tradeable_assets
              cfg.total_capital cfg.risk_per_trade cfg.symbol
              current_price stop_loss_price
            if s ≤ 0 then none else some s
      | none =>
          let s := calculate_position_size cfg.tradeable_assets
            cfg.total_capital cfg.risk_per_trade cfg.symbol
            current_price stop_loss_price
          if s ≤ 0 then none else some s
    match size? with
    | none => (false, st, ex)
    | some position_size =>
        let (ok, ex') := popOrder ex
        if ok then
          let pd : Position :=
            { side := signal
              size := position_size
              entry_price := current_price
              stop_loss_price := stop_loss_price
              take_profit_price :=
                if signal = 1 then current_price * (1 + cfg.take_profit_pct)
                else current_price * (1 - cfg.take_profit_pct) }
          if cfg.hedge_mode then
            (true,
             { st with positions :=
                (st.positions.set cfg.symbol
                  (hedgeStore (Ledger.lookup st.positions cfg.symbol) signal pd)) },
             ex')
          else
            (true,
             { st with positions := st.positions.set cfg.symbol (.single pd) },
             ex')
        else (false, st, ex')

/-- `TradingBot.execute_signal(signal, current_price, balance)`.
Returns `none` when the drawdown check raises `ZeroDivisionError`,
otherwise the method's boolean result with the updated state and
the remaining exchange oracle. -/
def execute_signal (cfg : BotConfig) (st : BotState) (ex : Exchange)
    (signal : Int) (current_price : ℚ) (balance : Option ℚ) :
    Option (Bool × BotState × Exchange) :=
  if signal = 0 then some (flatBranch cfg st ex)
  else
    let gate : Option (Bool × BotState) :=
      match balance with
      | none => some (false, st)
      | some b =>
          match check_global_drawdown st.peak cfg.global_drawdown_limit b with
          | none => none
          | some (p', h) => some (h, { st with peak := p' })
    match gate with
    | none => none
    | some (true, st1) => some (false, st1, ex)
    | some (false, st1) =>
        let st2 : BotState :=
          match Ledger.lookup st1.positions cfg.symbol with
          | none =>
              { st1 with positions :=
                  (st1.positions.set cfg.symbol
                    (if cfg.hedge_mode then .hedged none none else .empty)) }
          | some _ => st1
        let sp := (Ledger.lookup st2.positions cfg.symbol).getD .empty
        if cfg.hedge_mode then
          match sp with
          | .hedged lo sh =>
              if (if signal = 1 then lo else sh).isSome then
                some (false, st2, ex)
              else some (openEntry cfg st2 ex signal current_price)
          | .single p =>
              let migrated : SymbolSlot :=
                if p.side = 1 then .hedged (some p) none
                else .hedged none (some p)
              some (openEntry cfg
                { st2 with positions := st2.positions.set cfg.symbol migrated }
                ex signal current_price)
          | .empty =>
              some (openEntry cfg
                { st2 with positions := st2.positions.set cfg.symbol (.hedged none none) }
                ex signal current_price)
        else
          let conv : SymbolSlot :=
            match sp with
            | .hedged lo sh =>
                match lo with
                | some p => .single p
                | none =>
                    match sh with
                    | some p => .single p
                    | none => .empty
            | s => s
          let st3 : BotState :=
            match sp with
            | .hedged _ _ => { st2 with positions := st2.positions.set cfg.symbol conv }
            | _ => st2
          match conv with
          | .single p =>
              if (signal = 1 ∧ p.side = -1) ∨ (signal = -1 ∧ p.side = 1) then
                let (closed, st4, ex1) := close_position cfg st3 ex cfg.symbol none
                let st5 :=
                  if closed then st4
                  else { st4 with positions := st4.positions.set cfg.symbol .empty }
                some (openEntry cfg st5 ex1 signal current_price)
              else if signal = p.side then some (false, st3, ex)
              else some (openEntry cfg st3 ex signal current_price)
          | _ => some (openEntry cfg st3 ex signal current_price)

/-- The stop-loss trigger of `check_stop_loss_take_profit`:
`(side == 1 and price <= sl) or (side == -1 and price >= sl)`. -/
def slHit (side : Int) (price sl : ℚ) : Bool :=
  decide ((side = 1 ∧ price ≤ sl) ∨ (side = -1 ∧ price ≥ sl))

/-- The take-profit trigger of `check_stop_loss_take_profit`:
`(side == 1 and price >= tp) or (side == -1 and price <= tp)`. -/
def tpHit (side : Int) (price tp : ℚ) : Bool :=
  decide ((side = 1 ∧ price ≥ tp) ∨ (side = -1 ∧ price ≤ tp))

/-- Which exit branch fired (observable in the source only through its
`log.warning` stop-loss line vs `log.info` take-profit line). -/
inductive ExitReason where
  | stopLoss : ExitReason
  | takeProfit : ExitReason
  deriving DecidableEq, Repr

/-- The per-position body of `check_stop_loss_take_profit`: evaluate the
stop-loss condition first, then take-profit; a triggered condition
attempts `close_position` for that exact slot and records the symbol
(suffixed with the side key in hedge mode) only when the close
succeeded. -/
def checkExitPos (cfg : BotConfig) (price : ℚ) (st : BotState)
    (ex : Exchange) (sym : SymId) (side : Option PosSide)
    (pos : Option Position) :
    List (SymId × ExitReason) × BotState × Exchange :=
  match pos with
  | none => ([], st, ex)
  | some p =>
      let tag : SymId :=
        match side with
        | some .long => sym ++ "_long"
        | some .short => sym ++ "_short"
        | none => sym
      if slHit p.side price p.stop_loss_price then
        let (r, st', ex') := close_position cfg st ex sym side
        ((if r then [(tag, ExitReason.stopLoss)] else []), st', ex')
      else if tpHit p.side price p.take_profit_price then
        let (r, st', ex') := close_position cfg st ex sym side
        ((if r then [(tag, ExitReason.takeProfit)] else []), st', ex')
      else ([], st, ex)

/-- One iteration of `check_stop_loss_take_profit`'s loop over
`self.positions.items()`: in hedge mode the long slot is processed
before the short slot; otherwise a stored hedge dict yields its long
(else short) record without a write-back, and the single position is
checked. -/
def checkExitsSlot (cfg : BotConfig) (price : ℚ) (st : BotState)
    (ex : Exchange) (sym : SymId) (slot : SymbolSlot) :
    List (SymId × ExitReason) × BotState × Exchange :=
  match slot with
  | .empty => ([], st, ex)
  | .hedged lo sh =>
      if cfg.hedge_mode then
        let r1 := checkExitPos cfg price st ex sym (some .long) lo
        let r2 := checkExitPos cfg price r1.2.1 r1.2.2 sym (some .short) sh
        (r1.1 ++ r2.1, r2.2.1, r2.2.2)
      else
        let pos : Option Position :=
          match lo with
          | some p => some p
          | none => sh
        checkExitPos cfg price st ex sym none pos
  | .single p => checkExitPos cfg price st ex sym none (some p)

/-- The loop of `check_stop_loss_take_profit` over the (symbol, slot)
items; closing a symbol's position never touches another symbol's
entry, so iterating the initial item list matches the live dict view. -/
def checkExitsList (cfg : BotConfig) (price : ℚ) :
    List (SymId × SymbolSlot) → BotState → Exchange →
    List (SymId × ExitReason) × BotState × Exchange
  | [], st, ex => ([], st, ex)
  | (sym, slot) :: rest, st, ex =>
      let r1 := checkExitsSlot cfg price st ex sym slot
      let r2 := checkExitsList cfg price rest r1.2.1 r1.2.2
      (r1.1 ++ r2.1, r2.2.1, r2.2.2)

/-- `TradingBot.check_stop_loss_take_profit(current_price)`. -/
def check_stop_loss_take_profit (cfg : BotConfig) (st : BotState)
    (ex : Exchange) (price : ℚ) :
    List (SymId × ExitReason) × BotState × Exchange :=
  checkExitsList cfg price st.positions st ex

/-- Python's built-in `round` to an integer: nearest, ties to even. -/
def pythonRound (x : ℚ) : ℤ :=
  let f := ⌊x⌋
  let frac := x - f
  if frac < 1 / 2 then f
  else if frac > 1 / 2 then f + 1
  else if f % 2 = 0 then f else f + 1

/-- `round(amount, 8)` (the `qty_step <= 0` fallback). -/
def roundTo8 (x : ℚ) : ℚ :=
  (pythonRound (x * 100000000) : ℚ) / 100000000

/-- The quantity normalization of `_place_order_direct_api`: round the
base-currency amount to the nearest multiple of the instrument's
`qtyStep` (`round(amount / qty_step) * qty_step`), then raise it to
`minOrderQty` if it fell below. -/
def round_quantity (qty_step min_qty amount : ℚ) : ℚ :=
  let btc_amount_rounded :=
    if qty_step > 0 then (pythonRound (amount / qty_step) : ℚ) * qty_step
    else roundTo8 amount
  if btc_amount_rounded < min_qty then min_qty else btc_amount_rounded

/-- What `LiveTradingBot.get_current_signal` receives from the strategy
function: an exception, a result without a usable `Signal` column
(`strategy_df is None` or the column missing), or the `Signal` column
itself, each cell either `NaN` (`none`) or a number. -/
inductive StratResult where
  | err : StratResult
  | noSignalCol : StratResult
  | signals (column : List (Option ℚ)) : StratResult
  deriving DecidableEq, Repr

/-- Python `int()` on a float: truncation toward zero. -/
def pyInt (q : ℚ) : ℤ :=
  if q ≥ 0 then ⌊q⌋ else ⌈q⌉

/-- `LiveTradingBot.get_current_signal(df)`: `None` on a strategy error
or missing `Signal` column (or the `IndexError` of `iloc[-1]` on an
empty column, caught by the same `except`), `0` when the latest signal
is `NaN`, else `int(latest_signal)`. -/
def get_current_signal : StratResult → Option Int
  | .err => none
  | .noSignalCol => none
  | .signals column =>
      match column.getLast? with
      | none => none
      | some none => some 0
      | some (some v) => some (pyInt v)

/-- The dispatch of the live loop on the signal value: `None` sleeps and
retries, anything else is displayed and handed to trade execution. -/
inductive LoopAction where
  | retry : LoopAction
  | act (signal : Int) : LoopAction
  deriving DecidableEq, Repr

/-- `run` loop: `if signal is None: ... continue` else proceed. -/
def loopDispatch : Option Int → LoopAction
  | none => .retry
  | some s => .act s

/-- Deliver the same signal `n` times in sequence through
`execute_signal`, threading state and exchange oracle (a raising call
leaves both as they were). -/
def iterateSignal (cfg : BotConfig) (signal : Int) (current_price : ℚ)
    (balance : Option ℚ) : ℕ → BotState → Exchange → BotState × Exchange
  | 0, st, ex => (st, ex)
  | n + 1, st, ex =>
      match execute_signal cfg st ex signal current_price balance with
      | none => iterateSignal cfg signal current_price balance n st ex
      | some (_, st', ex') => iterateSignal cfg signal current_price balance n st' ex'

/-- Number of open position-slots as the spec counts them in hedge mode:
a symbol's long and short slots count separately. -/
def openSlotTotal (d : Ledger) : ℕ :=
  (d.map fun kv => kv.2.tracked.length).sum

/-- Number of symbols currently holding at least one position (the
spec's one-way count). -/
def symbolsWithPosition (d : Ledger) : ℕ :=
  (d.filter fun kv => ¬ kv.2.tracked.isEmpty).length

theorem Ledger.lookup_set_self (d : Ledger) (k : SymId) (v : SymbolSlot) :
    (d.set k v).lookup k = some v := by
  induction d with
  | nil => simp [Ledger.set, Ledger.lookup]
  | cons hd t ih =>
      obtain ⟨k', v'⟩ := hd
      by_cases h : k' = k
      · simp [Ledger.set, Ledger.lookup, h]
      · simp [Ledger.set, Ledger.lookup, h, ih]

theorem Ledger.lookup_set_ne (d : Ledger) (k k2 : SymId) (v : SymbolSlot)
    (h : k2 ≠ k) : (d.set k v).lookup k2 = d.lookup k2 := by
  have h' : ¬ k = k2 := fun hh => h hh.symm
  induction d with
  | nil => simp [Ledger.set, Ledger.lookup, h']
  | cons hd t ih =>
      obtain ⟨k', v'⟩ := hd
      by_cases hk : k' = k
      · subst hk
        simp [Ledger.set, Ledger.lookup, h']
      · simp [Ledger.set, Ledger.lookup, hk, ih]

theorem Ledger.trackedCount_set_present (d : Ledger) (k : SymId)
    (v s : SymbolSlot) (h : d.lookup k = some s) :
    (d.set k v).trackedCount + s.tracked.length =
      d.trackedCount + v.tracked.length := by
  induction d with
  | nil => simp [Ledger.lookup] at h
  | cons hd t ih =>
      obtain ⟨k', v'⟩ := hd
      by_cases hk : k' = k
      · simp only [Ledger.lookup, hk, if_pos rfl] at h
        cases h
        simp [Ledger.set, hk, Ledger.trackedCount]
        ring
      · simp only [Ledger.lookup, hk, if_neg hk] at h
        have := ih h
        simp only [Ledger.set, if_neg hk, Ledger.trackedCount, List.map_cons,
          List.sum_cons] at this ⊢
        omega

theorem Ledger.trackedCount_set_absent (d : Ledger) (k : SymId)
    (v : SymbolSlot) (h : d.lookup k = none) :
    (d.set k v).trackedCount = d.trackedCount + v.tracked.length := by
  induction d with
  | nil => simp [Ledger.set, Ledger.trackedCount]
  | cons hd t ih =>
      obtain ⟨k', v'⟩ := hd
      by_cases hk : k' = k
      · simp [Ledger.lookup, hk] at h
      · simp only [Ledger.lookup, if_neg hk] at h
        have := ih h
        simp only [Ledger.set, if_neg hk, Ledger.trackedCount, List.map_cons,
          List.sum_cons] at this ⊢
        omega

theorem Ledger.trackedCount_set_le (d : Ledger) (k : SymId)
    (v s : SymbolSlot) (h : d.lookup k = some s)
    (hle : v.tracked.length ≤ s.tracked.length) :
    (d.set k v).trackedCount ≤ d.trackedCount := by
  have := Ledger.trackedCount_set_present d k v s h
  omega

theorem closeOneWay_trackedCount_le (st : BotState) (ex : Exchange)
    (sym : SymId) (sp : SymbolSlot)
    (h : st.positions.lookup sym = some sp) :
    (closeOneWay st ex sym sp).2.1.positions.trackedCount ≤
      st.positions.trackedCount := by
  cases sp with
  | empty => simp [closeOneWay]
  | single p =>
      cases ex with
      | nil => simp [closeOneWay, popOrder]
      | cons b r =>
          cases b
          · simp [closeOneWay, popOrder]
          · simp only [closeOneWay, popOrder]
            exact Ledger.trackedCount_set_le _ _ _ _ h (by simp [SymbolSlot.tracked])
  | hedged lo sh =>
      have hconv :
          ∀ conv : SymbolSlot,
            conv.tracked.length ≤ (SymbolSlot.hedged lo sh).tracked.length →
            (st.positions.set sym conv).trackedCount ≤ st.positions.trackedCount :=
        fun conv hle => Ledger.trackedCount_set_le _ _ _ _ h hle
      cases lo with
      | some p =>
          cases ex with
          | nil =>
              simp only [closeOneWay, popOrder]
              exact hconv _ (by simp [SymbolSlot.tracked])
          | cons b r =>
              cases b
              · simp only [closeOneWay, popOrder]
                exact hconv _ (by simp [SymbolSlot.tracked])
              · simp only [closeOneWay, popOrder]
                calc ((st.positions.set sym (SymbolSlot.single p)).set sym .empty).trackedCount
                    ≤ (st.positions.set sym (SymbolSlot.single p)).trackedCount :=
                      Ledger.trackedCount_set_le _ _ _ _
                        (Ledger.lookup_set_self _ _ _) (by simp [SymbolSlot.tracked])
                  _ ≤ st.positions.trackedCount :=
                      hconv _ (by simp [SymbolSlot.tracked])
      | none =>
          cases sh with
          | some p =>
              cases ex with
              | nil =>
                  simp only [closeOneWay, popOrder]
                  exact hconv _ (by simp [SymbolSlot.tracked])
              | cons b r =>
                  cases b
                  · simp only [closeOneWay, popOrder]
                    exact hconv _ (by simp [SymbolSlot.tracked])
                  · simp only [closeOneWay, popOrder]
                    calc ((st.positions.set sym (SymbolSlot.single p)).set sym .empty).trackedCount
                        ≤ (st.positions.set sym (SymbolSlot.single p)).trackedCount :=
                          Ledger.trackedCount_set_le _ _ _ _
                            (Ledger.lookup_set_self _ _ _) (by simp [SymbolSlot.tracked])
                      _ ≤ st.positions.trackedCount :=
                          hconv _ (by simp [SymbolSlot.tracked])
          | none =>
              simp only [closeOneWay]
              exact hconv _ (by simp [SymbolSlot.tracked])

theorem closePositionSide_trackedCount_le (cfg : BotConfig) (st : BotState)
    (ex : Exchange) (sym : SymId) (s : PosSide) :
    (closePositionSide cfg st ex sym s).2.1.positions.trackedCount ≤
      st.positions.trackedCount := by
  cases hl : st.positions.lookup sym with
  | none => simp [closePositionSide, hl]
  | some sp =>
      cases sp with
      | empty => simpa [closePositionSide, hl] using closeOneWay_trackedCount_le st ex sym .empty hl
      | single p => simpa [closePositionSide, hl] using closeOneWay_trackedCount_le st ex sym (.single p) hl
      | hedged lo sh =>
          by_cases hm : cfg.hedge_mode
          · cases s with
            | long =>
                cases lo with
                | none => simp [closePositionSide, hl, hm]
                | some p =>
                    cases ex with
                    | nil => simp [closePositionSide, hl, hm, popOrder]
                    | cons b r =>
                        cases b
                        · simp [closePositionSide, hl, hm, popOrder]
                        · cases sh <;>
                            · simp only [closePositionSide, hl, hm, if_true, popOrder]
                              exact Ledger.trackedCount_set_le _ _ _ _ hl
                                (by simp [SymbolSlot.tracked])
            | short =>
                cases sh with
                | none => simp [closePositionSide, hl, hm]
                | some p =>
                    cases ex with
                    | nil => simp [closePositionSide, hl, hm, popOrder]
                    | cons b r =>
                        cases b
                        · simp [closePositionSide, hl, hm, popOrder]
                        · cases lo <;>
                            · simp only [closePositionSide, hl, hm, if_true, popOrder]
                              exact Ledger.trackedCount_set_le _ _ _ _ hl
                                (by simp [SymbolSlot.tracked])
          · simpa [closePositionSide, hl, hm] using
              closeOneWay_trackedCount_le st ex sym (.hedged lo sh) hl

theorem close_position_trackedCount_le (cfg : BotConfig) (st : BotState)
    (ex : Exchange) (sym : SymId) (side : Option PosSide) :
    (close_position cfg st ex sym side).2.1.positions.trackedCount ≤
      st.positions.trackedCount := by
  cases side with
  | some s => simpa [close_position] using closePositionSide_trackedCount_le cfg st ex sym s
  | none =>
      cases hl : st.positions.lookup sym with
      | none => simp [close_position, hl]
      | some sp =>
          cases sp with
          | empty => simpa [close_position, hl] using closeOneWay_trackedCount_le st ex sym .empty hl
          | single p => simpa [close_position, hl] using closeOneWay_trackedCount_le st ex sym (.single p) hl
          | hedged lo sh =>
              by_cases hm : cfg.hedge_mode
              · simp only [close_position, hl, hm, if_true]
                have h1 := closePositionSide_trackedCount_le cfg st ex sym .long
                by_cases hlo : lo.isSome
                · simp only [hlo, if_true]
                  by_cases hsh : sh.isSome
                  · simp only [hsh, if_true]
                    exact le_trans
                      (closePositionSide_trackedCount_le cfg _ _ sym .short) h1
                  · simpa [hsh] using h1
                · simp only [hlo, if_false]
                  by_cases hsh : sh.isSome
                  · simpa [hsh] using closePositionSide_trackedCount_le cfg st ex sym .short
                  · simp [hsh]
              · simpa [close_position, hl, hm] using
                  closeOneWay_trackedCount_le st ex sym (.hedged lo sh) hl

theorem flatBranch_trackedCount_le (cfg : BotConfig) (st : BotState)
    (ex : Exchange) :
    (flatBranch cfg st ex).2.1.positions.trackedCount ≤
      st.positions.trackedCount := by
  cases hl : st.positions.lookup cfg.symbol with
  | none => simp [flatBranch, hl]
  | some sp =>
      cases sp with
      | empty => simp [flatBranch, hl]
      | single p =>
          simpa [flatBranch, hl] using
            close_position_trackedCount_le cfg st ex cfg.symbol none
      | hedged lo sh =>
          by_cases hm : cfg.hedge_mode
          · simp only [flatBranch, hl, hm, if_true]
            have h1 := close_position_trackedCount_le cfg st ex cfg.symbol (some .long)
            by_cases hlo : lo.isSome
            · simp only [hlo, if_true]
              by_cases hsh : sh.isSome
              · simp only [hsh, if_true]
                exact le_trans
                  (close_position_trackedCount_le cfg _ _ cfg.symbol (some .short)) h1
              · simpa [hsh] using h1
            · simp only [hlo, if_false]
              by_cases hsh : sh.isSome
              · simpa [hsh] using
                  close_position_trackedCount_le cfg st ex cfg.symbol (some .short)
              · simp [hsh]
          · simpa [flatBranch, hl, hm] using
              close_position_trackedCount_le cfg st ex cfg.symbol none

/-- C2: position sizing returns 0 exactly when the entry price is
non-positive, the stop price is non-positive, the stop distance is
zero, or the symbol is not allow-listed; otherwise it is exactly
`capital * riskFraction / |entry - stop|`.  It is a pure function of
its arguments and the configured capital and risk fraction. -/
theorem C2_position_sizing (assets : List SymId) (capital riskFrac : ℚ)
    (symbol : SymId) (entry stop : ℚ) :
    calculate_position_size assets capital riskFrac symbol entry stop =
      if symbol ∈ assets ∧ 0 < entry ∧ 0 < stop ∧ entry ≠ stop then
        capital * riskFrac / |entry - stop|
      else 0 := by
  simp only [calculate_position_size]
  by_cases h1 : symbol ∈ assets
  · by_cases h2 : entry ≤ 0 ∨ stop ≤ 0
    · rcases h2 with h | h
      · simp [h1, h, not_lt.mpr h]
      · simp [h1, h, not_lt.mpr h]
    · push_neg at h2
      by_cases h3 : |entry - stop| = 0
      · have he : entry = stop := by
          have := abs_eq_zero.mp h3
          linarith [sub_eq_zero.mp this]
        simp [h1, he, h3]
      · have hne : entry ≠ stop := by
          intro h
          exact h3 (by rw [h, sub_self, abs_zero])
        have hno : ¬ (entry ≤ 0 ∨ stop ≤ 0) := by
          push_neg
          exact h2
        simp [h1, hno, h3, hne, h2.1, h2.2]
  · simp [h1]

/-- Python `round` lands within half a unit of its argument. -/
theorem pythonRound_close (x : ℚ) : |(pythonRound x : ℚ) - x| ≤ 1 / 2 := by
  have h0 : (⌊x⌋ : ℚ) ≤ x := Int.floor_le x
  have h1 : x < ⌊x⌋ + 1 := Int.lt_floor_add_one x
  simp only [pythonRound]
  split_ifs with ha hb hc <;> rw [abs_le] <;> constructor <;> push_cast <;>
    linarith

/-- C9: for a positive `qtyStep`, the order quantity is the amount
rounded to a multiple of the step lying within half a step of the raw
amount (Python `round`: nearest, ties to even), and a rounded quantity
below `minOrderQty` is raised to exactly `minOrderQty`. -/
theorem C9_quantity_rounding (qty_step min_qty amount : ℚ)
    (hstep : 0 < qty_step) :
    (∃ k : ℤ, (pythonRound (amount / qty_step) : ℚ) * qty_step = k * qty_step) ∧
    |(pythonRound (amount / qty_step) : ℚ) * qty_step - amount| ≤ qty_step / 2 ∧
    round_quantity qty_step min_qty amount =
      (if (pythonRound (amount / qty_step) : ℚ) * qty_step < min_qty then min_qty
       else (pythonRound (amount / qty_step) : ℚ) * qty_step) := by
  refine ⟨⟨pythonRound (amount / qty_step), rfl⟩, ?_, ?_⟩
  · have hne : qty_step ≠ 0 := ne_of_gt hstep
    have hq : amount / qty_step * qty_step = amount := div_mul_cancel₀ amount hne
    have hc := pythonRound_close (amount / qty_step)
    have key : (pythonRound (amount / qty_step) : ℚ) * qty_step - amount =
        ((pythonRound (amount / qty_step) : ℚ) - amount / qty_step) * qty_step := by
      rw [sub_mul, hq]
    rw [key, abs_mul, abs_of_pos hstep]
    calc |(pythonRound (amount / qty_step) : ℚ) - amount / qty_step| * qty_step
        ≤ 1 / 2 * qty_step := by
          exact mul_le_mul_of_nonneg_right hc (le_of_lt hstep)
      _ = qty_step / 2 := by ring
  · simp [round_quantity, hstep]

/-- C9 witness: 0.5244 with step 0.001 is sent as 0.524 (not 0.525),
and an amount rounding below the minimum is raised to the minimum. -/
theorem C9_quantity_rounding_witness :
    (0 : ℚ) < 1 / 1000 ∧
    round_quantity (1 / 1000) (1 / 1000) (5244 / 10000) = 524 / 1000 ∧
    round_quantity (1 / 1000) (1 / 1000) (4 / 10000) = 1 / 1000 ∧
    |(pythonRound ((5244 : ℚ) / 10000 / (1 / 1000)) : ℚ) * (1 / 1000) -
        5244 / 10000| ≤ (1 / 1000) / 2 := by
  refine ⟨by norm_num, ?_, ?_, (C9_quantity_rounding (1 / 1000) (1 / 1000)
    (5244 / 10000) (by norm_num)).2.1⟩
  · have h := (C9_quantity_rounding (1 / 1000) (1 / 1000) (5244 / 10000)
      (by norm_num)).2.2
    rw [h]
    norm_num [pythonRound]
  · have h := (C9_quantity_rounding (1 / 1000) (1 / 1000) (4 / 10000)
      (by norm_num)).2.2
    rw [h]
    norm_num [pythonRound]

/-- C8 counterexample: with `peak_portfolio_value == 0` and a portfolio
value of `0`, `check_global_drawdown` evaluates `(0 - 0) / 0` — a
Python `ZeroDivisionError` (`none` in the embedding) — instead of
treating the drawdown as 0 and returning `False`. -/
theorem C8_counterexample :
    check_global_drawdown 0 (1 / 5) 0 = none ∧
    check_global_drawdown 0 (1 / 5) 0 ≠ some (0, false) := by
  constructor
  · norm_num [check_global_drawdown]
  · norm_num [check_global_drawdown]
    intro h
    cases h

/-- C8 amended: there is no zero-division guard.  With `peakValue == 0`
the check returns `False` only when the portfolio value is positive
(because the peak update runs first and makes the divisor positive);
for a portfolio value `<= 0` the division by zero raises instead of
returning `False`. -/
theorem C8_zero_peak (limit v : ℚ) (hlimit : 0 < limit) :
    (0 < v → check_global_drawdown 0 limit v = some (v, false)) ∧
    (v ≤ 0 → check_global_drawdown 0 limit v = none) := by
  constructor
  · intro hv
    have hne : v ≠ 0 := ne_of_gt hv
    simp [check_global_drawdown, hv, hne, sub_self, hlimit.not_le]
  · intro hv
    have h : ¬ v > 0 := not_lt.mpr hv
    simp [check_global_drawdown, h]

/-- C8 amended witness at portfolio values 1 and -1. -/
theorem C8_zero_peak_witness :
    (0 : ℚ) < 1 / 5 ∧
    check_global_drawdown 0 (1 / 5) 1 = some (1, false) ∧
    check_global_drawdown 0 (1 / 5) (-1) = none :=
  ⟨by norm_num,
   (C8_zero_peak (1 / 5) 1 (by norm_num)).1 (by norm_num),
   (C8_zero_peak (1 / 5) (-1) (by norm_num)).2 (by norm_num)⟩

/-- A sample one-way-mode configuration used by concrete witnesses:
`BTC/USDT`, a fixed 0.1 quantity override, 2% stop / 4% take-profit,
5 concurrent trades, 20% drawdown limit, capital 100000, 1% risk. -/
def cfgOneWay : BotConfig :=
  { symbol := "BTC/USDT"
    hedge_mode := false
    quantity_btc := some (1 / 10)
    stop_loss_pct := 1 / 50
    take_profit_pct := 1 / 25
    max_concurrent_trades := 5
    global_drawdown_limit := 1 / 5
    total_capital := 100000
    risk_per_trade := 1 / 100
    tradeable_assets := ["BTC/USDT"] }

/-- The same sample configuration in hedge mode. -/
def cfgHedge : BotConfig := { cfgOneWay with hedge_mode := true }

/-- C3: with a positive peak, the drawdown check updates the peak to
`max(peak, value)`, halts exactly when `(peak - value) / peak` is at or
above the limit, and is latch-free: a halting call inside
`execute_signal` returns refusal with the positions and the exchange
oracle untouched, and once the ratio is back under the limit the call
proceeds exactly as a call with no drawdown gate (so trading resumes). -/
theorem C3_drawdown_gate (cfg : BotConfig) (st : BotState) (ex : Exchange)
    (signal : Int) (cp b : ℚ) (hpk : 0 < st.peak) (hsig : signal ≠ 0) :
    check_global_drawdown st.peak cfg.global_drawdown_limit b =
      some (max st.peak b,
        decide ((max st.peak b - b) / max st.peak b ≥ cfg.global_drawdown_limit)) ∧
    ((max st.peak b - b) / max st.peak b ≥ cfg.global_drawdown_limit →
      execute_signal cfg st ex signal cp (some b) =
        some (false, { st with peak := max st.peak b }, ex)) ∧
    ((max st.peak b - b) / max st.peak b < cfg.global_drawdown_limit →
      execute_signal cfg st ex signal cp (some b) =
        execute_signal cfg { st with peak := max st.peak b } ex signal cp none) := by
  have hmax : (if b > st.peak then b else st.peak) = max st.peak b := by
    rcases le_or_lt b st.peak with h | h
    · simp [not_lt.mpr h, max_eq_left h]
    · simp [h, max_eq_right (le_of_lt h)]
  have hne : max st.peak b ≠ 0 :=
    ne_of_gt (lt_of_lt_of_le hpk (le_max_left _ _))
  have hcgd : check_global_drawdown st.peak cfg.global_drawdown_limit b =
      some (max st.peak b,
        decide ((max st.peak b - b) / max st.peak b ≥ cfg.global_drawdown_limit)) := by
    simp only [check_global_drawdown, hmax]
    simp [hne]
  refine ⟨hcgd, ?_, ?_⟩
  · intro h
    have hd : decide ((max st.peak b - b) / max st.peak b ≥
        cfg.global_drawdown_limit) = true := decide_eq_true h
    rw [hd] at hcgd
    simp only [execute_signal, if_neg hsig, hcgd]
  · intro h
    have hd : decide ((max st.peak b - b) / max st.peak b ≥
        cfg.global_drawdown_limit) = false := decide_eq_false (not_le.mpr h)
    rw [hd] at hcgd
    simp only [execute_signal, if_neg hsig, hcgd]

/-- C3 witness: `peakValue = 100000`, limit `0.20`; portfolio value
79999 blocks (positions and oracle untouched), exactly 80000 blocks,
and at 80001 the call proceeds as if ungated. -/
theorem C3_drawdown_gate_witness :
    execute_signal cfgOneWay ⟨[], 100000⟩ [] 1 100 (some 79999) =
      some (false, ⟨[], 100000⟩, []) ∧
    execute_signal cfgOneWay ⟨[], 100000⟩ [] 1 100 (some 80000) =
      some (false, ⟨[], 100000⟩, []) ∧
    execute_signal cfgOneWay ⟨[], 100000⟩ [] 1 100 (some 80001) =
      execute_signal cfgOneWay ⟨[], 100000⟩ [] 1 100 none := by
  have h1 := (C3_drawdown_gate cfgOneWay ⟨[], 100000⟩ [] 1 100 79999
    (by norm_num) (by norm_num)).2.1
  have h2 := (C3_drawdown_gate cfgOneWay ⟨[], 100000⟩ [] 1 100 80000
    (by norm_num) (by norm_num)).2.1
  have h3 := (C3_drawdown_gate cfgOneWay ⟨[], 100000⟩ [] 1 100 80001
    (by norm_num) (by norm_num)).2.2
  have hm1 : max (100000 : ℚ) 79999 = 100000 := max_eq_left (by norm_num)
  have hm2 : max (100000 : ℚ) 80000 = 100000 := max_eq_left (by norm_num)
  have hm3 : max (100000 : ℚ) 80001 = 100000 := max_eq_left (by norm_num)
  rw [hm1] at h1
  rw [hm2] at h2
  rw [hm3] at h3
  refine ⟨h1 (by norm_num [cfgOneWay]), h2 (by norm_num [cfgOneWay]),
    h3 (by norm_num [cfgOneWay])⟩

/-- C10: a latest `Signal` of `NaN` yields the hold signal `0` (never an
entry signal or an error), a strategy error or missing column yields
`None`, the live loop treats `None` as a retry (not a trade), and a
`0` signal can never grow the set of tracked positions. -/
theorem C10_nan_signal_holds (column : List (Option ℚ)) (cfg : BotConfig)
    (st : BotState) (ex : Exchange) (cp : ℚ) (b : Option ℚ) :
    get_current_signal (.signals (column ++ [none])) = some 0 ∧
    get_current_signal .err = none ∧
    get_current_signal .noSignalCol = none ∧
    loopDispatch (get_current_signal .err) = .retry ∧
    (∀ r st2 ex2,
      execute_signal cfg st ex 0 cp b = some (r, st2, ex2) →
      st2.positions.trackedCount ≤ st.positions.trackedCount) := by
  refine ⟨?_, rfl, rfl, rfl, ?_⟩
  · simp [get_current_signal, List.getLast?_concat]
  · intro r st2 ex2 hh
    have he : execute_signal cfg st ex 0 cp b = some (flatBranch cfg st ex) := rfl
    rw [he, Option.some_inj] at hh
    have h := flatBranch_trackedCount_le cfg st ex
    rw [hh] at h
    exact h

/-- C10 witness at a concrete NaN-tailed column and a flat call on an
empty ledger. -/
theorem C10_nan_signal_holds_witness :
    get_current_signal (.signals [some 1, none]) = some 0 ∧
    (⟨[], (100000 : ℚ)⟩ : BotState).positions.trackedCount ≤
      (⟨[], (100000 : ℚ)⟩ : BotState).positions.trackedCount := by
  have h := C10_nan_signal_holds [some 1] cfgOneWay ⟨[], 100000⟩ [] 100 none
  refine ⟨h.1, ?_⟩
  exact h.2.2.2.2 false ⟨[], 100000⟩ [] (by decide)

/-- C5: a non-flat signal matching an already-open position on that side
is a no-op: `execute_signal` returns `False`, leaves state and exchange
oracle untouched (no order), in hedge mode (occupied side slot) and in
one-way mode (same-side stored position) alike; hence any number of
consecutive identical signals leaves exactly the one open position. -/
theorem C5_idempotent_signals (cfg : BotConfig) (st : BotState)
    (ex : Exchange) (signal : Int) (cp : ℚ) (hsig : signal ≠ 0)
    (h : (cfg.hedge_mode = true ∧ ∃ lo sh,
            st.positions.lookup cfg.symbol = some (.hedged lo sh) ∧
            (if signal = 1 then lo else sh).isSome = true) ∨
         (cfg.hedge_mode = false ∧ ∃ p,
            st.positions.lookup cfg.symbol = some (.single p) ∧
            p.side = signal)) :
    execute_signal cfg st ex signal cp none = some (false, st, ex) ∧
    ∀ n, iterateSignal cfg signal cp none n st ex = (st, ex) := by
  have hmain : execute_signal cfg st ex signal cp none = some (false, st, ex) := by
    rcases h with ⟨hm, lo, sh, hl, hs⟩ | ⟨hm, p, hl, hside⟩
    · simp only [execute_signal, if_neg hsig, hm, hl, hs]
      simp [hl, hs]
    · subst hside
      have hcon : ¬ ((p.side = 1 ∧ p.side = -1) ∨ (p.side = -1 ∧ p.side = 1)) := by
        omega
      simp only [execute_signal, if_neg hsig, hm, hl]
      simp [hl, hcon]
  refine ⟨hmain, ?_⟩
  intro n
  induction n with
  | zero => rfl
  | succ n ih =>
      simp only [iterateSignal, hmain]
      exact ih

/-- C5 witness: one open long in each mode, hit again with the same
signal. -/
theorem C5_idempotent_signals_witness :
    execute_signal cfgOneWay
      ⟨[("BTC/USDT", .single ⟨1, 1/10, 100, 98, 104⟩)], 100000⟩
      [true] 1 100 none =
      some (false, ⟨[("BTC/USDT", .single ⟨1, 1/10, 100, 98, 104⟩)], 100000⟩, [true]) ∧
    iterateSignal cfgHedge 1 100 none 3
      ⟨[("BTC/USDT", .hedged (some ⟨1, 1/10, 100, 98, 104⟩) none)], 100000⟩
      [true] =
      (⟨[("BTC/USDT", .hedged (some ⟨1, 1/10, 100, 98, 104⟩) none)], 100000⟩, [true]) := by
  constructor
  · exact (C5_idempotent_signals cfgOneWay
      ⟨[("BTC/USDT", .single ⟨1, 1/10, 100, 98, 104⟩)], 100000⟩
      [true] 1 100 (by decide)
      (Or.inr ⟨rfl, ⟨1, 1/10, 100, 98, 104⟩, rfl, rfl⟩)).1
  · exact (C5_idempotent_signals cfgHedge
      ⟨[("BTC/USDT", .hedged (some ⟨1, 1/10, 100, 98, 104⟩) none)], 100000⟩
      [true] 1 100 (by decide)
      (Or.inl ⟨rfl, some ⟨1, 1/10, 100, 98, 104⟩, none, rfl, rfl⟩)).2 3

theorem openEntry_refused (cfg : BotConfig) (st : BotState) (ex : Exchange)
    (signal : Int) (cp : ℚ) (h : can_open_new_position cfg st = false) :
    openEntry cfg st ex signal cp = (false, st, ex) := by
  simp [openEntry, h]

/-- The explicit position record `execute_signal` builds for a filled
entry order. -/
def entryRecord (cfg : BotConfig) (signal : Int) (cp size : ℚ) : Position :=
  { side := signal
    size := size
    entry_price := cp
    stop_loss_price :=
      if signal = 1 then cp * (1 - cfg.stop_loss_pct)
      else cp * (1 + cfg.stop_loss_pct)
    take_profit_price :=
      if signal = 1 then cp * (1 + cfg.take_profit_pct)
      else cp * (1 - cfg.take_profit_pct) }

theorem openEntry_fixed_fail (cfg : BotConfig) (st : BotState)
    (ex : Exchange) (signal : Int) (cp q : ℚ)
    (hq : cfg.quantity_btc = some q) (hqpos : 0 < q)
    (hcan : can_open_new_position cfg st = true) :
    openEntry cfg st (false :: ex) signal cp = (false, st, ex) := by
  simp [openEntry, hcan, hq, hqpos, popOrder]

theorem openEntry_fixed_success (cfg : BotConfig) (st : BotState)
    (ex : Exchange) (signal : Int) (cp q : ℚ)
    (hq : cfg.quantity_btc = some q) (hqpos : 0 < q)
    (hcan : can_open_new_position cfg st = true) :
    openEntry cfg st (true :: ex) signal cp =
      (true,
       { st with positions :=
          (st.positions.set cfg.symbol
            (if cfg.hedge_mode then
              hedgeStore (st.positions.lookup cfg.symbol) signal
                (entryRecord cfg signal cp q)
             else .single (entryRecord cfg signal cp q))) },
       ex) := by
  by_cases hm : cfg.hedge_mode <;>
    simp [openEntry, hcan, hq, hqpos, popOrder, entryRecord, hm]

theorem openEntry_cases (cfg : BotConfig) (st : BotState) (ex : Exchange)
    (signal : Int) (cp : ℚ) :
    (∃ ex2, openEntry cfg st ex signal cp = (false, st, ex2)) ∨
    (∃ pd ex2, pd.side = signal ∧
      openEntry cfg st ex signal cp =
        (true,
         { st with positions :=
            (st.positions.set cfg.symbol
              (if cfg.hedge_mode then
                hedgeStore (st.positions.lookup cfg.symbol) signal pd
               else .single pd)) },
         ex2)) := by
  by_cases hcan : can_open_new_position cfg st = true
  · simp only [openEntry, hcan, not_true, if_neg, ite_false]
    rcases hsz : (match cfg.quantity_btc with
      | some q =>
          if q > 0 then some q
          else
            let s := calculate_position_size cfg.tradeable_assets
              cfg.total_capital cfg.risk_per_trade cfg.symbol
              cp (if signal = 1 then cp * (1 - cfg.stop_loss_pct)
                  else cp * (1 + cfg.stop_loss_pct))
            if s ≤ 0 then none else some s
      | none =>
          let s := calculate_position_size cfg.tradeable_assets
            cfg.total_capital cfg.risk_per_trade cfg.symbol
            cp (if signal = 1 then cp * (1 - cfg.stop_loss_pct)
                else cp * (1 + cfg.stop_loss_pct))
          if s ≤ 0 then none else some s : Option ℚ) with _ | sz
    · left
      exact ⟨ex, by simp [openEntry, hcan, hsz]⟩
    · cases ex with
      | nil =>
          left
          exact ⟨[], by simp [openEntry, hcan, hsz, popOrder]⟩
      | cons b r =>
          cases b
          · left
            exact ⟨r, by simp [openEntry, hcan, hsz, popOrder]⟩
          · right
            by_cases hm : cfg.hedge_mode
            · exact ⟨entryRecord cfg signal cp sz, r, rfl,
                by simp [openEntry, hcan, hsz, popOrder, hm, entryRecord]⟩
            · exact ⟨entryRecord cfg signal cp sz, r, rfl,
                by simp [openEntry, hcan, hsz, popOrder, hm, entryRecord]⟩
  · left
    exact ⟨ex, openEntry_refused cfg st ex signal cp
      (Bool.eq_false_iff.mpr (fun h => hcan h))⟩

/-- C1 counterexample: one-way mode, open Long, Short signal, close leg
fails (first oracle entry `false`).  The claim says the open leg is
aborted — no new order — and the ledger ends `Flat`.  The code instead
clears the tracking and proceeds: the open order is placed (second
oracle entry consumed), `execute_signal` returns `True`, and the ledger
ends with a Short position, not `Flat`. -/
theorem C1_counterexample :
    execute_signal cfgOneWay
      ⟨[("BTC/USDT", .single ⟨1, 1/10, 100, 98, 104⟩)], 100000⟩
      [false, true] (-1) 100 none =
      some (true,
        ⟨[("BTC/USDT", .single ⟨-1, 1/10, 100, 102, 96⟩)], 100000⟩, []) ∧
    some (SymbolSlot.single ⟨-1, 1/10, 100, 102, 96⟩) ≠
      some SymbolSlot.empty := by
  constructor
  · norm_num [execute_signal, close_position, closeOneWay, closePositionSide,
      openEntry, can_open_new_position, popOrder, hedgeStore,
      Ledger.lookup, Ledger.set, cfgOneWay]
  · simp

/-- C1 amended: in a one-way reversal whose close leg fails, the code
does not abort — it clears the symbol's ledger entry to `None` and
proceeds to place the open-leg order anyway.  What survives of the
claim: the old position is no longer tracked, so the final ledger never
holds the old position plus a new opposite one; the slot ends either
`Flat` (open leg refused or failed) or holding only the new
opposite-side position, and no other symbol is touched. -/
theorem C1_reversal_close_failure (cfg : BotConfig) (st : BotState)
    (exr : Exchange) (signal : Int) (cp : ℚ) (p : Position)
    (hm : cfg.hedge_mode = false)
    (hl : st.positions.lookup cfg.symbol = some (.single p))
    (hrev : (signal = 1 ∧ p.side = -1) ∨ (signal = -1 ∧ p.side = 1)) :
    execute_signal cfg st (false :: exr) signal cp none =
      some (openEntry cfg
        { st with positions := st.positions.set cfg.symbol .empty }
        exr signal cp) ∧
    (∀ r st2 ex2,
      execute_signal cfg st (false :: exr) signal cp none =
        some (r, st2, ex2) →
      (st2.positions.lookup cfg.symbol = some SymbolSlot.empty ∨
       ∃ pd, st2.positions.lookup cfg.symbol = some (.single pd) ∧
         pd.side = signal) ∧
      ∀ k, k ≠ cfg.symbol → st2.positions.lookup k = st.positions.lookup k) := by
  have hsig : signal ≠ 0 := by rcases hrev with ⟨h1, _⟩ | ⟨h1, _⟩ <;> omega
  have hclose : close_position cfg st (false :: exr) cfg.symbol none =
      (false, st, exr) := by
    simp [close_position, hl, closeOneWay, popOrder]
  have hmain : execute_signal cfg st (false :: exr) signal cp none =
      some (openEntry cfg
        { st with positions := st.positions.set cfg.symbol .empty }
        exr signal cp) := by
    simp only [execute_signal, if_neg hsig, hm, hl, Option.getD_some,
      Bool.false_eq_true, if_false]
    rw [if_pos hrev]
    simp [hclose]
  refine ⟨hmain, ?_⟩
  intro r st2 ex2 hh
  rw [hmain, Option.some_inj] at hh
  have hcases := openEntry_cases cfg
    { st with positions := st.positions.set cfg.symbol .empty } exr signal cp
  rcases hcases with ⟨ex3, hcase⟩ | ⟨pd, ex3, hpd, hcase⟩
  · rw [hcase] at hh
    obtain ⟨rfl, rfl, rfl⟩ : r = false ∧
        st2 = { st with positions := st.positions.set cfg.symbol .empty } ∧
        ex2 = ex3 := by
      exact ⟨congrArg Prod.fst hh.symm, congrArg (fun t => t.2.1) hh.symm,
        congrArg (fun t => t.2.2) hh.symm⟩
    refine ⟨Or.inl ?_, ?_⟩
    · exact Ledger.lookup_set_self _ _ _
    · intro k hk
      exact Ledger.lookup_set_ne _ _ _ _ hk
  · rw [hcase] at hh
    obtain ⟨rfl, rfl, rfl⟩ : r = true ∧
        st2 = { st with positions :=
          ((st.positions.set cfg.symbol .empty).set cfg.symbol
            (if cfg.hedge_mode then
              hedgeStore ((st.positions.set cfg.symbol .empty).lookup cfg.symbol)
                signal pd
             else .single pd)) } ∧
        ex2 = ex3 := by
      exact ⟨congrArg Prod.fst hh.symm, congrArg (fun t => t.2.1) hh.symm,
        congrArg (fun t => t.2.2) hh.symm⟩
    refine ⟨Or.inr ⟨pd, ?_, hpd⟩, ?_⟩
    · rw [hm]
      simp only [Bool.false_eq_true, if_false]
      exact Ledger.lookup_set_self _ _ _
    · intro k hk
      rw [Ledger.lookup_set_ne _ _ _ _ hk, Ledger.lookup_set_ne _ _ _ _ hk]

/-- C1 amended witness: concrete failed close leg; the entry is cleared
and the opposite position is opened. -/
theorem C1_reversal_close_failure_witness :
    execute_signal cfgOneWay
      ⟨[("BTC/USDT", .single ⟨1, 1/10, 100, 98, 104⟩)], 100000⟩
      [false, true] (-1) 100 none =
      some (openEntry cfgOneWay
        ⟨Ledger.set [("BTC/USDT", .single ⟨1, 1/10, 100, 98, 104⟩)]
          "BTC/USDT" .empty, 100000⟩
        [true] (-1) 100) :=
  (C1_reversal_close_failure cfgOneWay
    ⟨[("BTC/USDT", .single ⟨1, 1/10, 100, 98, 104⟩)], 100000⟩
    [true] (-1) 100 ⟨1, 1/10, 100, 98, 104⟩ rfl rfl
    (Or.inr ⟨rfl, rfl⟩)).1

/-- C4: the ledger changes only on exchange confirmation.  Entry leg:
with the gate open and a positive fixed size, a failed placement
returns the state untouched while a confirmed placement inserts exactly
the new record in the signal's slot.  Close leg (one-way and hedge): a
failed close leaves the stored position in place, a confirmed close
removes exactly it. -/
theorem C4_ledger_on_confirmation (cfg : BotConfig) (st : BotState)
    (ex : Exchange) (signal : Int) (cp q : ℚ) (p : Position)
    (sym : SymId) (sh : Option Position)
    (hq : cfg.quantity_btc = some q) (hqpos : 0 < q)
    (hcan : can_open_new_position cfg st = true) :
    (openEntry cfg st (false :: ex) signal cp = (false, st, ex)) ∧
    (openEntry cfg st (true :: ex) signal cp =
      (true,
       { st with positions :=
          (st.positions.set cfg.symbol
            (if cfg.hedge_mode then
              hedgeStore (st.positions.lookup cfg.symbol) signal
                (entryRecord cfg signal cp q)
             else .single (entryRecord cfg signal cp q))) },
       ex)) ∧
    (st.positions.lookup sym = some (.single p) →
      close_position cfg st (false :: ex) sym none = (false, st, ex) ∧
      close_position cfg st (true :: ex) sym none =
        (true, { st with positions := st.positions.set sym .empty }, ex)) ∧
    (cfg.hedge_mode = true →
      st.positions.lookup sym = some (.hedged (some p) sh) →
      close_position cfg st (false :: ex) sym (some .long) = (false, st, ex) ∧
      close_position cfg st (true :: ex) sym (some .long) =
        (true,
         { st with positions :=
            (st.positions.set sym
              (match sh with
               | none => SymbolSlot.empty
               | some _ => SymbolSlot.hedged none sh)) },
         ex)) := by
  refine ⟨openEntry_fixed_fail cfg st ex signal cp q hq hqpos hcan,
    openEntry_fixed_success cfg st ex signal cp q hq hqpos hcan, ?_, ?_⟩
  · intro hl
    constructor
    · simp [close_position, hl, closeOneWay, popOrder]
    · simp [close_position, hl, closeOneWay, popOrder]
  · intro hm hl
    constructor
    · simp [close_position, closePositionSide, hl, hm, popOrder]
    · cases sh with
      | none => simp [close_position, closePositionSide, hl, hm, popOrder]
      | some p2 => simp [close_position, closePositionSide, hl, hm, popOrder]

/-- C4 witness: concrete failed and confirmed entry and close legs. -/
theorem C4_ledger_on_confirmation_witness :
    openEntry cfgOneWay ⟨[], 100000⟩ [false] 1 100 =
      (false, ⟨[], 100000⟩, []) ∧
    close_position cfgOneWay
      ⟨[("BTC/USDT", .single ⟨1, 1/10, 100, 98, 104⟩)], 100000⟩
      [false] "BTC/USDT" none =
      (false, ⟨[("BTC/USDT", .single ⟨1, 1/10, 100, 98, 104⟩)], 100000⟩, []) ∧
    close_position cfgOneWay
      ⟨[("BTC/USDT", .single ⟨1, 1/10, 100, 98, 104⟩)], 100000⟩
      [true] "BTC/USDT" none =
      (true,
       ⟨Ledger.set [("BTC/USDT", .single ⟨1, 1/10, 100, 98, 104⟩)]
          "BTC/USDT" .empty, 100000⟩, []) := by
  have h := C4_ledger_on_confirmation cfgOneWay
    ⟨[("BTC/USDT", .single ⟨1, 1/10, 100, 98, 104⟩)], 100000⟩
    [] 1 100 (1/10) ⟨1, 1/10, 100, 98, 104⟩ "BTC/USDT" none rfl
    (by norm_num) rfl
  have h0 := C4_ledger_on_confirmation cfgOneWay ⟨[], 100000⟩
    [] 1 100 (1/10) ⟨1, 1/10, 100, 98, 104⟩ "BTC/USDT" none rfl
    (by norm_num) rfl
  exact ⟨h0.1, (h.2.2.1 rfl).1, (h.2.2.1 rfl).2⟩

/-- Sample configuration with `maxConcurrentTrades = 2`. -/
def cfgTwoMax : BotConfig := { cfgOneWay with max_concurrent_trades := 2 }

/-- Two one-way positions open on distinct symbols. -/
def stTwoOpen : BotState :=
  ⟨[("ETH/USDT", .single ⟨1, 1, 3000, 2940, 3120⟩),
    ("SOL/USDT", .single ⟨1, 1, 150, 147, 156⟩)], 100000⟩

/-- The same ledger after the first position was closed. -/
def stOneOpen : BotState :=
  ⟨[("ETH/USDT", .empty),
    ("SOL/USDT", .single ⟨1, 1, 150, 147, 156⟩)], 100000⟩

/-- C7: the gate counts open slots across all symbols — in hedge mode a
symbol's long and short slots count separately, in one-way mode (with
the ledger in one-way shape) each symbol holding a position counts
once; an entry is refused, with no order and no state change, exactly
when the count is at or above `maxConcurrentTrades`, and proceeds when
strictly below. -/
theorem C7_concurrency_gate (cfg : BotConfig) (st : BotState)
    (ex : Exchange) (signal : Int) (cp q : ℚ) :
    (cfg.hedge_mode = true →
      can_open_new_position cfg st =
        decide (openSlotTotal st.positions < cfg.max_concurrent_trades)) ∧
    (cfg.hedge_mode = false →
      (∀ kv ∈ st.positions, ∀ lo sh, kv.2 ≠ SymbolSlot.hedged lo sh) →
      can_open_new_position cfg st =
        decide (symbolsWithPosition st.positions < cfg.max_concurrent_trades)) ∧
    (can_open_new_position cfg st = false →
      openEntry cfg st ex signal cp = (false, st, ex)) ∧
    (can_open_new_position cfg st = true →
      cfg.quantity_btc = some q → 0 < q →
      openEntry cfg st (true :: ex) signal cp =
        (true,
         { st with positions :=
            (st.positions.set cfg.symbol
              (if cfg.hedge_mode then
                hedgeStore (st.positions.lookup cfg.symbol) signal
                  (entryRecord cfg signal cp q)
               else .single (entryRecord cfg signal cp q))) },
         ex)) := by
  refine ⟨?_, ?_, fun h => openEntry_refused cfg st ex signal cp h,
    fun hcan hq hqpos =>
      openEntry_fixed_success cfg st ex signal cp q hq hqpos hcan⟩
  · intro hm
    have hfun : (fun kv : SymId × SymbolSlot =>
        match kv.2 with
        | .hedged lo sh =>
            (if lo.isSome then 1 else 0) + (if sh.isSome then 1 else 0)
        | .single _ => 1
        | .empty => (0 : ℕ)) =
        fun kv : SymId × SymbolSlot => kv.2.tracked.length := by
      funext kv
      obtain ⟨k, s⟩ := kv
      cases s with
      | empty => rfl
      | single p => rfl
      | hedged lo sh => cases lo <;> cases sh <;> simp [SymbolSlot.tracked]
    simp only [can_open_new_position, hm, if_true, openSlotTotal, hfun]
  · intro hm hshape
    have hfilter : st.positions.filter
        (fun kv => kv.2 ≠ SymbolSlot.empty) =
        st.positions.filter (fun kv => ¬ kv.2.tracked.isEmpty) := by
      apply List.filter_congr
      intro kv hkv
      obtain ⟨k, s⟩ := kv
      cases s with
      | empty => simp [SymbolSlot.tracked]
      | single p => simp [SymbolSlot.tracked]
      | hedged lo sh => exact absurd rfl (hshape (k, .hedged lo sh) hkv lo sh)
    simp only [can_open_new_position, hm, Bool.false_eq_true, if_false,
      symbolsWithPosition, hfilter]

/-- C7 witness: `maxConcurrentTrades = 2` — a third distinct-symbol
entry is refused while two are open and succeeds once one is closed. -/
theorem C7_concurrency_gate_witness :
    can_open_new_position cfgTwoMax stTwoOpen = false ∧
    openEntry cfgTwoMax stTwoOpen [true] 1 100 = (false, stTwoOpen, [true]) ∧
    can_open_new_position cfgTwoMax stOneOpen = true ∧
    openEntry cfgTwoMax stOneOpen [true] 1 100 =
      (true,
       { stOneOpen with positions :=
          (stOneOpen.positions.set cfgTwoMax.symbol
            (if cfgTwoMax.hedge_mode then
              hedgeStore (stOneOpen.positions.lookup cfgTwoMax.symbol) 1
                (entryRecord cfgTwoMax 1 100 (1/10))
             else .single (entryRecord cfgTwoMax 1 100 (1/10)))) },
       []) := by
  have h2 := C7_concurrency_gate cfgTwoMax stTwoOpen [true] 1 100 (1/10)
  have h1 := C7_concurrency_gate cfgTwoMax stOneOpen [] 1 100 (1/10)
  refine ⟨rfl, h2.2.2.1 rfl, rfl, h1.2.2.2 rfl rfl (by norm_num)⟩

/-- C6: every tracked position is evaluated with the stop-loss
condition `(side==Long ∧ price ≤ sl) ∨ (side==Short ∧ price ≥ sl)`
first and the take-profit condition
`(side==Long ∧ price ≥ tp) ∨ (side==Short ∧ price ≤ tp)` second, so a
price satisfying both closes via stop-loss; a single tracked position
is closed exactly when one of the two conditions holds, in one-way and
hedge mode alike. -/
theorem C6_exit_triggers (cfg : BotConfig) (sym : SymId) (p : Position)
    (price pk : ℚ) :
    (∀ st ex side,
      slHit p.side price p.stop_loss_price = true →
      ∀ x ∈ (checkExitPos cfg price st ex sym side (some p)).1,
        x.2 = ExitReason.stopLoss) ∧
    (cfg.hedge_mode = false →
      check_stop_loss_take_profit cfg ⟨[(sym, .single p)], pk⟩ [true] price =
        (if slHit p.side price p.stop_loss_price then
          ([(sym, ExitReason.stopLoss)], ⟨[(sym, .empty)], pk⟩, [])
         else if tpHit p.side price p.take_profit_price then
          ([(sym, ExitReason.takeProfit)], ⟨[(sym, .empty)], pk⟩, [])
         else ([], ⟨[(sym, .single p)], pk⟩, [true]))) ∧
    (cfg.hedge_mode = true →
      check_stop_loss_take_profit cfg
        ⟨[(sym, .hedged (some p) none)], pk⟩ [true] price =
        (if slHit p.side price p.stop_loss_price then
          ([(sym ++ "_long", ExitReason.stopLoss)], ⟨[(sym, .empty)], pk⟩, [])
         else if tpHit p.side price p.take_profit_price then
          ([(sym ++ "_long", ExitReason.takeProfit)],
            ⟨[(sym, .empty)], pk⟩, [])
         else ([], ⟨[(sym, .hedged (some p) none)], pk⟩, [true]))) := by
  refine ⟨?_, ?_, ?_⟩
  · intro st ex side hsl x hx
    simp only [checkExitPos, hsl, if_true] at hx
    split at hx
    · rcases List.mem_singleton.mp hx with rfl
      rfl
    · cases hx
  · intro hm
    by_cases hsl : slHit p.side price p.stop_loss_price
    · simp [check_stop_loss_take_profit, checkExitsList, checkExitsSlot,
        checkExitPos, hsl, close_position, closeOneWay, popOrder,
        Ledger.lookup, Ledger.set, hm]
    · by_cases htp : tpHit p.side price p.take_profit_price <;>
        simp [check_stop_loss_take_profit, checkExitsList, checkExitsSlot,
          checkExitPos, hsl, htp, close_position, closeOneWay, popOrder,
          Ledger.lookup, Ledger.set, hm]
  · intro hm
    by_cases hsl : slHit p.side price p.stop_loss_price
    · simp [check_stop_loss_take_profit, checkExitsList, checkExitsSlot,
        checkExitPos, hsl, close_position, closePositionSide, popOrder,
        Ledger.lookup, Ledger.set, hm]
    · by_cases htp : tpHit p.side price p.take_profit_price <;>
        simp [check_stop_loss_take_profit, checkExitsList, checkExitsSlot,
          checkExitPos, hsl, htp, close_position, closePositionSide, popOrder,
          Ledger.lookup, Ledger.set, hm]

/-- C6 witness: long entry 100 / stop 98 / target 104 — price 97 closes
via stop-loss, price 105 via take-profit; a degenerate position whose
stop (110) and target (90) are both satisfied at price 100 closes via
stop-loss. -/
theorem C6_exit_triggers_witness :
    check_stop_loss_take_profit cfgOneWay
      ⟨[("BTC/USDT", .single ⟨1, 1, 100, 98, 104⟩)], 100000⟩ [true] 97 =
      ([("BTC/USDT", ExitReason.stopLoss)],
       ⟨[("BTC/USDT", .empty)], 100000⟩, []) ∧
    check_stop_loss_take_profit cfgOneWay
      ⟨[("BTC/USDT", .single ⟨1, 1, 100, 98, 104⟩)], 100000⟩ [true] 105 =
      ([("BTC/USDT", ExitReason.takeProfit)],
       ⟨[("BTC/USDT", .empty)], 100000⟩, []) ∧
    check_stop_loss_take_profit cfgOneWay
      ⟨[("BTC/USDT", .single ⟨1, 1, 100, 110, 90⟩)], 100000⟩ [true] 100 =
      ([("BTC/USDT", ExitReason.stopLoss)],
       ⟨[("BTC/USDT", .empty)], 100000⟩, []) := by
  have h1 := (C6_exit_triggers cfgOneWay "BTC/USDT" ⟨1, 1, 100, 98, 104⟩
    97 100000).2.1 rfl
  have h2 := (C6_exit_triggers cfgOneWay "BTC/USDT" ⟨1, 1, 100, 98, 104⟩
    105 100000).2.1 rfl
  have h3 := (C6_exit_triggers cfgOneWay "BTC/USDT" ⟨1, 1, 100, 110, 90⟩
    100 100000).2.1 rfl
  rw [h1, h2, h3]
  norm_num [slHit, tpHit]
